import Mathlib

/-!
Verification of graphql-sync-dataloaders.

Shallow embedding of the core of the `graphql_sync_dataloaders` package
(`sync_future.py`, `sync_dataloader.py`, `execution_context.py`) and proofs
about the claims of its specification.

Futures live in a heap addressed by `FId`; callbacks registered on a future
are deeply embedded by the `Callback` type, covering exactly the closure
shapes the source creates (`self.set_result` bound methods registered by
flattening, the `call_and_resolve` closure created by `then`, and an
observer used to state callback-ordering facts).  All operations are
interpreted by fuel-indexed functions returning the mutated heap together
with the exception propagating out of the call, if any, mirroring Python's
exception flow statement by statement.
-/

/-- Identifier of a `SyncFuture` object in the heap (its allocation index). -/
abbrev FId := Nat

/-- Python exceptions distinguished by the library.  `InvalidStateError` is
defined in the package's `exceptions` module (re-exported by `__init__`);
`typeErr` is Python's built-in `TypeError` raised by the self-resolution
check, `valueErr` the `ValueError` raised by the batch-contract check,
`runtimeErr` the `RuntimeError`s of `sync_dataloader.load` and
`execute_operation`, and `userErr` stands for an arbitrary exception raised
by user code (e.g. a batch-fetch function). -/
inductive PyErr where
  | invalidState (msg : String)
  | typeErr (msg : String)
  | valueErr (msg : String)
  | runtimeErr (msg : String)
  | userErr (msg : String)
deriving DecidableEq, Repr

/-- Whether an error is the library's `InvalidStateError`. -/
def PyErr.isInvalidState : PyErr → Bool
  | .invalidState _ => true
  | _ => false

/-- Python values as they occur in the modelled code: `None`, the graphql
`Undefined` sentinel, scalars, a reference to a `SyncFuture` object, or an
`Exception` instance used as a per-key batch result. -/
inductive PyVal where
  | none
  | undefined
  | int (n : Int)
  | str (s : String)
  | fut (fid : FId)
  | exc (e : PyErr)
deriving DecidableEq, Repr

/-- `isinstance(v, SyncFuture)`. -/
def PyVal.isFut : PyVal → Bool
  | .fut _ => true
  | _ => false

/-- `_state` of a `SyncFuture`: `_PENDING` or `_FINISHED`. -/
inductive FState where
  | pending
  | finished
deriving DecidableEq, Repr

/-- The callback closures the source registers via `add_done_callback`:
`set_result` bound methods (registered by the flattening branch of
`set_result`), the `call_and_resolve` closure created by `then` (closing
over the returned future and the `on_complete` transform), and a pure
observer recording the value it receives in the heap's log (used to state
when callbacks fire). -/
inductive Callback where
  | setResultOf (target : FId)
  | callAndResolve (ret : FId) (onComplete : PyVal → Except PyErr PyVal)
  | record

/-- One `SyncFuture` object: `_state`, `_result`, `_exception`,
`_callbacks`.  (`deferred_callback` is never assigned by the code under
`src/`, so it is constantly `None` and omitted.) -/
structure Future where
  state : FState := .pending
  result : Option PyVal := Option.none
  exception : Option PyErr := Option.none
  callbacks : List Callback := []

/-- A fresh `SyncFuture()`. -/
def Future.pendingF : Future := {}

/-- The heap of allocated futures plus an observation log written by
`Callback.record`. -/
structure Heap where
  futures : List Future
  log : List PyVal := []

/-- Look an object up in the heap. -/
def getFut (h : Heap) (fid : FId) : Option Future := h.futures[fid]?

/-- Overwrite one object of the heap. -/
def setFut (h : Heap) (fid : FId) (f : Future) : Heap :=
  { h with futures := h.futures.set fid f }

/-- `SyncFuture.done`: `self._state != _PENDING`. -/
def doneF (h : Heap) (fid : FId) : Bool :=
  match getFut h fid with
  | Option.some f => f.state ≠ .pending
  | Option.none => false

/-- `SyncFuture.add_done_callback`: assert `_PENDING`, then append. -/
def add_done_callback (h : Heap) (fid : FId) (cb : Callback) :
    Heap × Option PyErr :=
  match getFut h fid with
  | Option.none => (h, some (.runtimeErr "missing future"))
  | Option.some f =>
    if f.state ≠ .pending then
      (h, some (.invalidState "Future is not PENDING"))
    else
      (setFut h fid { f with callbacks := f.callbacks ++ [cb] }, Option.none)

/-- One pending call of the mutually recursive operation family of
`SyncFuture` (`set_result`, `set_exception`, `_finish`, the callback loop
of `_finish`, and a single callback invocation).  Deep-embedding the call
makes the whole interpreter one structural recursion on fuel, so that the
kernel can evaluate it on concrete scenarios. -/
inductive FCall where
  | setRes (selfId : FId) (v : PyVal)
  | setExc (selfId : FId) (e : PyErr)
  | finishSelf (selfId : FId)
  | runCbs (selfId : FId) (cbs : List Callback)
  | runCb (cb : Callback) (v : PyVal)

/-- The interpreter for the `SyncFuture` operations, one source statement at
a time:

* `setRes` — `set_result`: raise `TypeError` if `result is self`; if
  `result` is a future, register `self.set_result` on it (flattening);
  otherwise assert `_PENDING`, store the result and `_finish`.
* `setExc` — `set_exception`: assert `_PENDING`, store the exception and
  `_finish`.
* `finishSelf` — `_finish`: set `_state = _FINISHED`, take the callback
  list, and if nonempty clear it and invoke each callback.
* `runCbs` — the loop of `_finish`: each callback is called with
  `self._result` (read at each call, `None` when unset, e.g. after
  `set_exception`); an exception raised by a callback propagates out.
* `runCb` — one callback invocation; `call_and_resolve` (from `then`) runs
  `ret.set_result(on_complete(v))` and catches any exception into
  `ret.set_exception(e)`. -/
def interp (fuel : Nat) (h : Heap) (c : FCall) : Heap × Option PyErr :=
  match fuel with
  | 0 => (h, some (.runtimeErr "out of fuel"))
  | fuel + 1 =>
    match c with
    | .setRes selfId v =>
      if v = .fut selfId then
        (h, some (.typeErr "Cannot resolve future with itself."))
      else
        match v with
        | .fut rid => add_done_callback h rid (.setResultOf selfId)
        | _ =>
          match getFut h selfId with
          | Option.none => (h, some (.runtimeErr "missing future"))
          | Option.some f =>
            if f.state ≠ .pending then
              (h, some (.invalidState "Future is not PENDING"))
            else
              interp fuel (setFut h selfId { f with result := some v })
                (.finishSelf selfId)
    | .setExc selfId e =>
      match getFut h selfId with
      | Option.none => (h, some (.runtimeErr "missing future"))
      | Option.some f =>
        if f.state ≠ .pending then
          (h, some (.invalidState "Future is not PENDING"))
        else
          interp fuel (setFut h selfId { f with exception := some e })
            (.finishSelf selfId)
    | .finishSelf selfId =>
      match getFut h selfId with
      | Option.none => (h, some (.runtimeErr "missing future"))
      | Option.some f =>
        if f.callbacks.isEmpty then
          (setFut h selfId { f with state := .finished }, Option.none)
        else
          interp fuel (setFut h selfId { f with state := .finished, callbacks := [] })
            (.runCbs selfId f.callbacks)
    | .runCbs selfId cbs =>
      match cbs with
      | [] => (h, Option.none)
      | cb :: rest =>
        let v := ((getFut h selfId).bind (·.result)).getD .none
        match interp fuel h (.runCb cb v) with
        | (h', some e) => (h', some e)
        | (h', Option.none) => interp fuel h' (.runCbs selfId rest)
    | .runCb cb v =>
      match cb with
      | .setResultOf target => interp fuel h (.setRes target v)
      | .record => ({ h with log := h.log ++ [v] }, Option.none)
      | .callAndResolve ret f =>
        match f v with
        | .error e => interp fuel h (.setExc ret e)
        | .ok w =>
          match interp fuel h (.setRes ret w) with
          | (h', Option.none) => (h', Option.none)
          | (h', some e) => interp fuel h' (.setExc ret e)

/-- `SyncFuture.set_result`. -/
def set_result (fuel : Nat) (h : Heap) (selfId : FId) (v : PyVal) :
    Heap × Option PyErr :=
  interp fuel h (.setRes selfId v)

/-- `SyncFuture.set_exception`. -/
def set_exception (fuel : Nat) (h : Heap) (selfId : FId) (e : PyErr) :
    Heap × Option PyErr :=
  interp fuel h (.setExc selfId e)

deriving instance DecidableEq for Except

/-- `SyncFuture.result`: assert `_FINISHED`, re-raise `_exception` if set,
else return `_result`. -/
def futResult (h : Heap) (fid : FId) : Except PyErr PyVal :=
  match getFut h fid with
  | Option.none => .error (.runtimeErr "missing future")
  | Option.some f =>
    if f.state ≠ .finished then .error (.invalidState "Future is not FINISHED")
    else
      match f.exception with
      | some e => .error e
      | Option.none => .ok (f.result.getD .none)

/-- `SyncFuture.then`: allocate the returned future, then register the
`call_and_resolve` closure on `self` (which raises `InvalidStateError` if
`self` is already done). -/
def thenOp (h : Heap) (selfId : FId) (f : PyVal → Except PyErr PyVal) :
    (Heap × Option PyErr) × FId :=
  let retId := h.futures.length
  let h1 := { h with futures := h.futures ++ [Future.pendingF] }
  (add_done_callback h1 selfId (.callAndResolve retId f), retId)

/-! ## Batch loader (`sync_dataloader.py`) -/

/-- Dataloader keys (the tests use strings). -/
abbrev Key := String

/-- `SyncDataLoader` state: `_cache` (a dict mapping keys to futures, in
insertion order) and `_queue` (the pending `(key, future)` list). -/
structure Loader where
  cache : List (Key × FId) := []
  queue : List (Key × FId) := []

/-- The whole mutable state threaded through the loader code: the future
heap, the loader, the `_dataloader_batch_callbacks` context variable (the
active `DataloaderBatchCallbacks` scope's `_callbacks` list, each entry
being this loader's bound `dispatch_queue` method), and the record of
arguments the external `batch_load_fn` has been invoked with. -/
structure World where
  heap : Heap := { futures := [] }
  loader : Loader := {}
  scope : Option (List Unit) := Option.none
  fetchCalls : List (List Key) := []

/-- `self._cache[key]` lookup. -/
def cacheLookup (c : List (Key × FId)) (k : Key) : Option FId :=
  (c.find? (fun p => p.1 = k)).map (·.2)

/-- `SyncDataLoader.load`: return the cached future if present; otherwise
allocate a future, compute `needs_dispatch` from the queue *before*
appending, append to the queue, and if `needs_dispatch` register
`dispatch_queue` on the active scope — raising `RuntimeError` when the
context variable is unset, in which case the cache assignment (which comes
last in the source) is never reached. -/
def load (w : World) (k : Key) : World × Except PyErr FId :=
  match cacheLookup w.loader.cache k with
  | Option.some fid => (w, .ok fid)
  | Option.none =>
    let fid := w.heap.futures.length
    let h1 := { w.heap with futures := w.heap.futures ++ [Future.pendingF] }
    let needsDispatch := w.loader.queue.isEmpty
    let q1 := w.loader.queue ++ [(k, fid)]
    if needsDispatch then
      match w.scope with
      | Option.none =>
        ({ w with heap := h1, loader := { w.loader with queue := q1 } },
         .error (.runtimeErr "DeferredExecutionContext not properly configured"))
      | Option.some cbs =>
        ({ w with heap := h1,
                  loader := { cache := w.loader.cache ++ [(k, fid)], queue := q1 },
                  scope := some (cbs ++ [()]) },
         .ok fid)
    else
      ({ w with heap := h1,
                loader := { cache := w.loader.cache ++ [(k, fid)], queue := q1 } },
       .ok fid)

/-- `SyncDataLoader.clear`: `self._cache.pop(key, None)`. -/
def clearKey (l : Loader) (k : Key) : Loader :=
  { l with cache := l.cache.eraseP (fun p => p.1 = k) }

/-- What the external `batch_load_fn` does on one invocation: raise, return
something that is not a collection, or return a list of per-key results. -/
inductive BatchOut where
  | raises (e : PyErr)
  | notCollection
  | values (vs : List PyVal)

/-- The settling loop of `dispatch_queue`:
`for (key, future), value in zip(queue, values)` — `set_exception` for
`Exception` instances, `set_result` otherwise; the first exception raised
by a settlement aborts the loop and propagates (into the `except` branch). -/
def settleLoop (fuel : Nat) (h : Heap) (pairs : List ((Key × FId) × PyVal)) :
    Heap × Option PyErr :=
  match pairs with
  | [] => (h, Option.none)
  | ((_, fid), v) :: rest =>
    let step :=
      match v with
      | .exc e => set_exception fuel h fid e
      | _ => set_result fuel h fid v
    match step with
    | (h', some e) => (h', some e)
    | (h', Option.none) => settleLoop fuel h' rest

/-- The `except` branch of `dispatch_queue`: for every queued key, evict it
from the cache and, if its future is not yet done, set the caught error on
it (an exception raised by that `set_exception` itself propagates). -/
def exceptLoop (fuel : Nat) (w : World) (entries : List (Key × FId))
    (err : PyErr) : World × Option PyErr :=
  match entries with
  | [] => (w, Option.none)
  | (k, fid) :: rest =>
    let w1 := { w with loader := clearKey w.loader k }
    if doneF w1.heap fid then exceptLoop fuel w1 rest err
    else
      match set_exception fuel w1.heap fid err with
      | (h', some e) => ({ w1 with heap := h' }, some e)
      | (h', Option.none) => exceptLoop fuel { w1 with heap := h' } rest err

/-- `SyncDataLoader.dispatch_queue`: return if the queue is empty; otherwise
empty the queue, call `batch_load_fn` once with the queued keys (recorded in
`fetchCalls`), raise `ValueError` if the return value is not a collection of
the same length, and otherwise settle each queued future positionally, with
the `except` branch above on a settlement error. -/
def dispatch_queue (fuel : Nat) (batchFn : List Key → BatchOut) (w : World) :
    World × Option PyErr :=
  let queue := w.loader.queue
  if queue.isEmpty then (w, Option.none)
  else
    let w1 := { w with loader := { w.loader with queue := [] } }
    let keys := queue.map (·.1)
    let w2 := { w1 with fetchCalls := w1.fetchCalls ++ [keys] }
    match batchFn keys with
    | .raises e => (w2, some e)
    | .notCollection =>
      (w2, some (.valueErr "The batch loader does not return an expected result"))
    | .values vs =>
      if keys.length ≠ vs.length then
        (w2, some (.valueErr "The batch loader does not return an expected result"))
      else
        match settleLoop fuel w2.heap (queue.zip vs) with
        | (h', Option.none) => ({ w2 with heap := h' }, Option.none)
        | (h', some err) => exceptLoop fuel { w2 with heap := h' } queue err

/-- `DataloaderBatchCallbacks.run_all_callbacks`:
`while callbacks: callbacks.pop(0)()` — each stored callback is this
loader's `dispatch_queue`; an exception raised by a callback propagates
out of the drain uncaught. -/
def run_all_callbacks (fuel : Nat) (batchFn : List Key → BatchOut) (w : World) :
    World × Option PyErr :=
  match fuel with
  | 0 => (w, some (.runtimeErr "out of fuel"))
  | fuel + 1 =>
    match w.scope with
    | Option.none => (w, Option.none)
    | Option.some [] => (w, Option.none)
    | Option.some (() :: rest) =>
      let w1 := { w with scope := some rest }
      match dispatch_queue fuel batchFn w1 with
      | (w2, some e) => (w2, some e)
      | (w2, Option.none) => run_all_callbacks fuel batchFn w2

/-- A sequence of `load` calls (dropping the returned futures). -/
def loadMany (w : World) (ks : List Key) : World :=
  ks.foldl (fun w k => (load w k).1) w

/-- The keys of a cache/queue dict, in insertion order. -/
def keysOf (c : List (Key × FId)) : List Key := c.map Prod.fst

/-- The requested keys that actually reach the queue: deduplicated,
first-seen order, skipping keys already cached. -/
def newKeys (cached : List Key) : List Key → List Key
  | [] => []
  | k :: ks =>
    if k ∈ cached then newKeys cached ks
    else k :: newKeys (cached ++ [k]) ks

/-! ## Field tree evaluator (`execution_context.py`) -/

/-- One slot of the `results` dict built by `execute_fields_serially`:
either a settled value or the `PENDING_FUTURE` placeholder object. -/
inductive Slot where
  | val (v : PyVal)
  | pendingMarker
deriving DecidableEq, Repr

/-- The `results` container: a Python dict, i.e. an insertion-ordered
association list with unique keys. -/
abbrev RDict := List (String × Slot)

/-- Python dict `d[k] = s`: updating an existing key keeps its position,
a new key is appended at the end. -/
def dictSet (d : RDict) (k : String) (s : Slot) : RDict :=
  if d.any (fun p => p.1 = k) then
    d.map (fun p => if p.1 = k then (k, s) else p)
  else d ++ [(k, s)]

/-- Python dict `del d[k]`. -/
def dictDel (d : RDict) (k : String) : RDict :=
  d.eraseP (fun p => p.1 = k)

/-- What `self.execute_field` returns for one field, as seen by
`execute_fields_serially`: an immediate (non-future) value, a future that
is already done with a value, or a still-pending future. -/
inductive FieldRes where
  | immediate (v : PyVal)
  | doneFuture (v : PyVal)
  | pendingFuture (fid : FId)

/-- The mutable locals of `execute_fields_serially` after its synchronous
loop: the `results` dict, the `unresolved` counter, and the pending fields
whose `process_result` callbacks were registered (in registration order). -/
structure SerialState where
  results : RDict := []
  unresolved : Nat := 0
  pendingFields : List (String × FId) := []

/-- The synchronous loop of `execute_fields_serially`: for each field in
declared order, insert immediate and already-done values right away
(omitting `Undefined`), and for a pending future write the
`PENDING_FUTURE` placeholder to reserve the field's slot, bump
`unresolved`, and register `process_result`. -/
def executeFieldsPass (fields : List (String × FieldRes)) : SerialState :=
  fields.foldl
    (fun st p =>
      match p.2 with
      | .immediate v =>
        if v = .undefined then st
        else { st with results := dictSet st.results p.1 (.val v) }
      | .doneFuture v =>
        if v = .undefined then st
        else { st with results := dictSet st.results p.1 (.val v) }
      | .pendingFuture fid =>
        { st with
            results := dictSet st.results p.1 .pendingMarker,
            unresolved := st.unresolved + 1,
            pendingFields := st.pendingFields ++ [(p.1, fid)] })
    {}

/-- The `process_result` closure of `execute_fields_serially`, run when a
pending field's future settles with `awaited`: write the real value over
the placeholder (or delete the slot on `Undefined`), decrement
`unresolved`, and when it reaches zero settle the object's future with the
accumulated `results` dict (returned as `some`). -/
def processResult (st : SerialState) (name : String) (awaited : PyVal) :
    SerialState × Option RDict :=
  let results' :=
    if awaited = .undefined then dictDel st.results name
    else dictSet st.results name (.val awaited)
  let u' := st.unresolved - 1
  ({ st with results := results', unresolved := u' },
   if u' = 0 then some results' else Option.none)

/-- What `execute_field` hands back to `execute_fields_serially` for a
field whose resolver calls `loader.load key`, following
`execution_context.execute_field`: the `RuntimeError` raised by `load`
when no batch-callbacks scope is active is caught by the field boundary,
recorded as a located error, and the field yields `None`; a returned
pending future is passed through (its `deferred_callback` is `None` in
this source, so nothing joins `_deferred_callbacks`). -/
def executeFieldLoad (w : World) (k : Key) : World × FieldRes × List PyErr :=
  match load w k with
  | (w', .error e) => (w', .immediate .none, [e])
  | (w', .ok fid) =>
    if doneF w'.heap fid then
      (w', .doneFuture (match futResult w'.heap fid with
                        | .ok v => v
                        | .error _ => .none), [])
    else (w', .pendingFuture fid, [])

/-- `DeferredExecutionContext.execute_operation` for a root query of two
fields whose resolvers call `loader.load k1` and `loader.load k2`.
Mirroring the source: `_deferred_callbacks` is initialised to `[]` and the
`_dataloader_batch_callbacks` context variable is never set, so the world
starts (and stays) with `scope = none`; after the synchronous pass the
(empty) `_deferred_callbacks` list is drained, and if the root result is a
still-pending future the method raises
`RuntimeError("GraphQL deferred execution failed to complete.")`. -/
def executeOperationTwoLoads (k1 k2 : Key) :
    World × List PyErr × Except PyErr RDict :=
  let w0 : World := { scope := Option.none }
  let (w1, r1, e1) := executeFieldLoad w0 k1
  let (w2, r2, e2) := executeFieldLoad w1 k2
  let st := executeFieldsPass [("f1", r1), ("f2", r2)]
  -- drain `self._deferred_callbacks`: it is `[]`, nothing runs
  if st.unresolved = 0 then (w2, e1 ++ e2, .ok st.results)
  else
    (w2, e1 ++ e2,
     .error (.runtimeErr "GraphQL deferred execution failed to complete."))

/-! ## Scenario heaps and helper lemmas -/

/-- Three fresh pending futures `a = 0`, `b = 1`, `c = 2`. -/
def heapABC : Heap := { futures := [{}, {}, {}] }

/-- A single fresh pending future `f = 0`. -/
def heapOne : Heap := { futures := [{}] }

/-- `f = 0` already finished with result `1`; `g = 1` still pending. -/
def heapDonePending : Heap :=
  { futures := [{ state := .finished, result := some (.int 1) }, {}] }

/-- `f = 0` pending; `g = 1` already finished with result `7`. -/
def heapPendingDone : Heap :=
  { futures := [{}, { state := .finished, result := some (.int 7) }] }

/-- A world with one uncached-then-cached key `"k"` queued for future 0,
as after one successful `load` (scope irrelevant for dispatch itself). -/
def worldOneQueued : World :=
  { heap := { futures := [{}] },
    loader := { cache := [("k", 0)], queue := [("k", 0)] } }

/-- A world whose queue holds two keys, the first future already finished
(settled externally between `load` and dispatch), the second pending:
settling the first positional result raises `InvalidStateError` inside the
dispatch loop, driving dispatch into its `except` branch. -/
def worldSettledQueued : World :=
  { heap := { futures := [{ state := .finished, result := some (.int 1) }, {}] },
    loader := { cache := [("a", 0), ("b", 1)], queue := [("a", 0), ("b", 1)] } }

/-- `worldOneQueued` with an active batch-callbacks scope holding the one
registered `dispatch_queue` callback. -/
def worldOneQueuedScoped : World :=
  { worldOneQueued with scope := some [()] }

/-- The composed transform `lambda v: h(g(v))` from the right-hand side of
the spec's round-trip law: an exception raised by `g` propagates, otherwise
`h` is applied to `g`'s result. -/
def compose2 (g h : PyVal → Except PyErr PyVal) : PyVal → Except PyErr PyVal :=
  fun x => match g x with
           | .error err => .error err
           | .ok y => h y

/-- Reduction of `set_result` for a value that is not a future: the
self-check and the flattening branch fall through, and the call asserts the
pending state, stores the result and finishes. -/
lemma set_result_notFut (fuel : Nat) (h : Heap) (i : FId) (v : PyVal)
    (hv : v.isFut = false) :
    set_result (fuel + 1) h i v =
      (match getFut h i with
       | Option.none => (h, some (.runtimeErr "missing future"))
       | Option.some f =>
         if f.state ≠ .pending then
           (h, some (.invalidState "Future is not PENDING"))
         else
           interp fuel (setFut h i { f with result := some v })
             (.finishSelf i)) := by
  cases v <;> simp_all [set_result, interp, PyVal.isFut]

/-- Writing any entry of a valid heap slot keeps the slot readable. -/
lemma getFut_setFut_self (h : Heap) (i : FId) (x f : Future)
    (hf : getFut h i = some f) : getFut (setFut h i x) i = some x := by
  have hlt : i < h.futures.length := by
    by_contra hge
    simp [getFut, List.getElem?_eq_none (Nat.le_of_not_lt hge)] at hf
  simp [getFut, setFut, List.getElem?_set_eq_of_lt x hlt]

/-- Overwriting the same heap slot twice keeps only the second write. -/
lemma setFut_setFut (h : Heap) (i : FId) (x y : Future) :
    setFut (setFut h i x) i y = setFut h i y := by
  simp [setFut, List.set_set]

/-- `set_result` on a pending future with no registered callbacks: it
finishes with the stored value and nothing else runs. -/
lemma set_result_no_cb (fuel : Nat) (h : Heap) (i : FId) (v : PyVal)
    (f : Future) (hf : getFut h i = some f) (hp : f.state = .pending)
    (hcb : f.callbacks = []) (hv : v.isFut = false) :
    set_result (fuel + 2) h i v =
      (setFut h i { f with state := .finished, result := some v }, Option.none) := by
  obtain ⟨st, res, exc, cbs⟩ := f
  simp only at hp hcb
  subst hp; subst hcb
  rw [show fuel + 2 = (fuel + 1) + 1 from rfl, set_result_notFut (fuel+1) h i v hv]
  have h2 := getFut_setFut_self h i ⟨.pending, some v, exc, []⟩ _ hf
  simp only [hf, interp, h2, ne_eq, not_true_eq_false, if_false, reduceIte,
    List.isEmpty_nil, if_true, setFut_setFut]

/-- `set_exception` on a pending future with no registered callbacks. -/
lemma set_exception_no_cb (fuel : Nat) (h : Heap) (i : FId) (e : PyErr)
    (f : Future) (hf : getFut h i = some f) (hp : f.state = .pending)
    (hcb : f.callbacks = []) :
    set_exception (fuel + 2) h i e =
      (setFut h i { f with state := .finished, exception := some e }, Option.none) := by
  obtain ⟨st, res, exc, cbs⟩ := f
  simp only at hp hcb
  subst hp; subst hcb
  have h2 := getFut_setFut_self h i ⟨.pending, res, some e, []⟩ _ hf
  rw [show fuel + 2 = (fuel + 1) + 1 from rfl]
  simp only [set_exception, interp, hf, h2, ne_eq, not_true_eq_false, if_false,
    reduceIte, List.isEmpty_nil, if_true, setFut_setFut]

/-- `set_result` on a pending future whose only callback is a
`call_and_resolve` closure (the shape `then` registers): the future
finishes with the value, and the closure runs on it, settling or failing
the downstream future. -/
lemma set_result_single_cAR (fuel : Nat) (h : Heap) (i r : FId)
    (g : PyVal → Except PyErr PyVal) (v : PyVal) (f : Future)
    (hf : getFut h i = some f) (hp : f.state = .pending)
    (hcb : f.callbacks = [.callAndResolve r g]) (hv : v.isFut = false) :
    set_result (fuel + 4) h i v =
      (match g v with
       | .error e =>
         set_exception fuel
           (setFut h i { f with state := .finished, result := some v, callbacks := [] }) r e
       | .ok w =>
         match set_result fuel
             (setFut h i { f with state := .finished, result := some v, callbacks := [] }) r w with
         | (h', Option.none) => (h', Option.none)
         | (h', some e) =>
           set_exception fuel h' r e) := by
  obtain ⟨st, res, exc, cbs⟩ := f
  simp only at hp hcb
  subst hp; subst hcb
  rw [show fuel + 4 = (fuel + 3) + 1 from rfl, set_result_notFut (fuel+3) h i v hv]
  have h2 := getFut_setFut_self h i ⟨.pending, some v, exc, [.callAndResolve r g]⟩ _ hf
  have h3 := getFut_setFut_self h i ⟨.finished, some v, exc, []⟩ _ hf
  rw [hf]
  simp only [ne_eq, not_true_eq_false, if_false, reduceIte]
  simp only [interp, h2, List.isEmpty_cons, setFut_setFut]
  simp only [Bool.false_eq_true, if_false, reduceIte, h3, Option.some_bind,
    Option.getD_some]
  rcases hgv : g v with e | w
  · simp only [set_exception]
    rcases hE : interp fuel (setFut h i ⟨.finished, some v, exc, []⟩) (.setExc r e) with ⟨h', e'⟩
    cases e' <;> simp [hE]
  · simp only [set_result, set_exception]
    rcases hR : interp fuel (setFut h i ⟨.finished, some v, exc, []⟩) (.setRes r w) with ⟨h', e'⟩
    cases e' with
    | none => simp
    | some e =>
      rcases hE : interp fuel h' (.setExc r e) with ⟨h'', e''⟩
      cases e'' <;> simp [hE]

/-- `set_exception` on a pending future whose only callback is a
`call_and_resolve` closure: the future fails with the error, but the
closure is then invoked with `self._result` — still `None` — so the
transform is applied to `None`, not to the error. -/
lemma set_exception_single_cAR (fuel : Nat) (h : Heap) (i r : FId)
    (g : PyVal → Except PyErr PyVal) (e0 : PyErr) (f : Future)
    (hf : getFut h i = some f) (hp : f.state = .pending)
    (hcb : f.callbacks = [.callAndResolve r g]) :
    set_exception (fuel + 4) h i e0 =
      (match g (f.result.getD .none) with
       | .error e =>
         set_exception fuel
           (setFut h i { f with state := .finished, exception := some e0, callbacks := [] }) r e
       | .ok w =>
         match set_result fuel
             (setFut h i { f with state := .finished, exception := some e0, callbacks := [] }) r w with
         | (h', Option.none) => (h', Option.none)
         | (h', some e) => set_exception fuel h' r e) := by
  obtain ⟨st, res, exc, cbs⟩ := f
  simp only at hp hcb
  subst hp; subst hcb
  have h2 := getFut_setFut_self h i ⟨.pending, res, some e0, [.callAndResolve r g]⟩ _ hf
  have h3 := getFut_setFut_self h i ⟨.finished, res, some e0, []⟩ _ hf
  rw [show fuel + 4 = (fuel + 3) + 1 from rfl]
  simp only [set_exception, interp, hf, ne_eq, not_true_eq_false, if_false, reduceIte,
    h2, List.isEmpty_cons, setFut_setFut, Bool.false_eq_true, h3, Option.some_bind,
    Option.getD_some]
  rcases hgv : g (res.getD .none) with e | w
  · simp only [set_exception]
    rcases hE : interp fuel (setFut h i ⟨.finished, res, some e0, []⟩) (.setExc r e) with ⟨h', e'⟩
    cases e' <;> simp [hE]
  · simp only [set_result, set_exception]
    rcases hR : interp fuel (setFut h i ⟨.finished, res, some e0, []⟩) (.setRes r w) with ⟨h', e'⟩
    cases e' with
    | none => simp [hR]
    | some e =>
      rcases hE : interp fuel h' (.setExc r e) with ⟨h'', e''⟩
      cases e'' <;> simp [hR, hE]

/-! ## Claims about the deferred-value primitive (`sync_future.py`) -/

/-- Claim C4: settling a Deferred Value with another Deferred Value flattens
transitively: with pending futures `a = 0`, `b = 1`, `c = 2` and an
observer callback registered on `a`, after `a.set_result(b)`,
`b.set_result(c)`, `c.set_result(5)` no step raises, `a` is still pending
(and its callbacks have not fired) before `c` settles, and once `c`
settles `a` is done with `a.result() == 5` and `a`'s callbacks have fired
exactly then. -/
theorem C4_set_result_flattens_transitively :
    (add_done_callback heapABC 0 .record).2 = Option.none ∧
    ((set_result 20 (add_done_callback heapABC 0 .record).1 0 (.fut 1)).2
       = Option.none ∧
     doneF (set_result 20 (add_done_callback heapABC 0 .record).1 0 (.fut 1)).1 0
       = false) ∧
    ((set_result 20
        (set_result 20 (add_done_callback heapABC 0 .record).1 0 (.fut 1)).1
        1 (.fut 2)).2 = Option.none ∧
     doneF (set_result 20
        (set_result 20 (add_done_callback heapABC 0 .record).1 0 (.fut 1)).1
        1 (.fut 2)).1 0 = false ∧
     (set_result 20
        (set_result 20 (add_done_callback heapABC 0 .record).1 0 (.fut 1)).1
        1 (.fut 2)).1.log = []) ∧
    ((set_result 20 (set_result 20
        (set_result 20 (add_done_callback heapABC 0 .record).1 0 (.fut 1)).1
        1 (.fut 2)).1 2 (.int 5)).2 = Option.none ∧
     doneF (set_result 20 (set_result 20
        (set_result 20 (add_done_callback heapABC 0 .record).1 0 (.fut 1)).1
        1 (.fut 2)).1 2 (.int 5)).1 0 = true ∧
     futResult (set_result 20 (set_result 20
        (set_result 20 (add_done_callback heapABC 0 .record).1 0 (.fut 1)).1
        1 (.fut 2)).1 2 (.int 5)).1 0 = .ok (.int 5) ∧
     (set_result 20 (set_result 20
        (set_result 20 (add_done_callback heapABC 0 .record).1 0 (.fut 1)).1
        1 (.fut 2)).1 2 (.int 5)).1.log = [.int 5]) := by
  decide

/-- Claim C6 counterexample: `a.set_result(a)` raises Python's `TypeError`
("Cannot resolve future with itself."), not the library's
`InvalidStateError`; and a transitive cycle `a.set_result(b);
b.set_result(a)` is not detected at all — both calls return without error,
silently registering callbacks, and both futures stay pending. -/
theorem C6_self_settlement_counterexample :
    (set_result 20 heapABC 0 (.fut 0)).2 =
      some (.typeErr "Cannot resolve future with itself.") ∧
    (set_result 20 heapABC 0 (.fut 0)).2.map PyErr.isInvalidState =
      some false ∧
    ((set_result 20 heapABC 0 (.fut 1)).2 = Option.none ∧
     (set_result 20 (set_result 20 heapABC 0 (.fut 1)).1 1 (.fut 0)).2 =
       Option.none ∧
     doneF (set_result 20 (set_result 20 heapABC 0 (.fut 1)).1 1 (.fut 0)).1 0 =
       false ∧
     doneF (set_result 20 (set_result 20 heapABC 0 (.fut 1)).1 1 (.fut 0)).1 1 =
       false) := by
  decide

/-- Claim C6 amended: for every heap and future, the direct self-settlement
`a.set_result(a)` deterministically raises `TypeError`
("Cannot resolve future with itself.") with the heap unchanged — so before
any callback fires; only the direct case is detected: settling through a
two-future cycle raises nothing and silently registers the mutual
callbacks, leaving both futures pending (they can never settle). -/
theorem C6_self_settlement_amended :
    (∀ (fuel : Nat) (h : Heap) (fid : FId),
        set_result (fuel + 1) h fid (.fut fid) =
          (h, some (.typeErr "Cannot resolve future with itself."))) ∧
    ((set_result 20 heapABC 0 (.fut 1)).2 = Option.none ∧
     (set_result 20 (set_result 20 heapABC 0 (.fut 1)).1 1 (.fut 0)).2 =
       Option.none ∧
     doneF (set_result 20 (set_result 20 heapABC 0 (.fut 1)).1 1 (.fut 0)).1 0 =
       false ∧
     doneF (set_result 20 (set_result 20 heapABC 0 (.fut 1)).1 1 (.fut 0)).1 1 =
       false ∧
     (getFut (set_result 20 (set_result 20 heapABC 0 (.fut 1)).1 1 (.fut 0)).1
        0).map (fun f => f.callbacks.length) = some 1 ∧
     (getFut (set_result 20 (set_result 20 heapABC 0 (.fut 1)).1 1 (.fut 0)).1
        1).map (fun f => f.callbacks.length) = some 1) := by
  refine ⟨fun fuel h fid => ?_, by decide⟩
  simp [set_result, interp]

/-- Claim C7 counterexample: a future that is already done accepts a further
`set_result` whose value is a still-pending future without raising
anything — the flattening branch registers a callback before any state
assertion — so not every further settle attempt on a done future fails
with `InvalidState`. -/
theorem C7_single_transition_counterexample :
    doneF heapDonePending 0 = true ∧
    doneF heapDonePending 1 = false ∧
    (set_result 20 heapDonePending 0 (.fut 1)).2 = Option.none := by
  decide

/-- Claim C7 amended: a Deferred Value transitions at most once.  For a
future that is already done, `set_exception` and `set_result` with a
non-future value fail with `InvalidState` leaving the heap (hence the
stored state, result and error) unchanged, and `set_result` with an
already-done future value also fails with `InvalidState` with the heap
unchanged; but `set_result` with a still-pending future value does not
fail at call time — it registers a callback on that future and leaves the
done future's entry unchanged (the `InvalidState` failure only surfaces
later, when that future settles). -/
theorem C7_single_transition_amended (fuel : Nat) (h : Heap) (fid : FId)
    (f : Future) (hf : getFut h fid = some f) (hdone : f.state = .finished) :
    (∀ e, set_exception (fuel + 1) h fid e =
        (h, some (.invalidState "Future is not PENDING"))) ∧
    (∀ v, v.isFut = false →
        set_result (fuel + 1) h fid v =
          (h, some (.invalidState "Future is not PENDING"))) ∧
    (∀ gid g, gid ≠ fid → getFut h gid = some g → g.state = .finished →
        set_result (fuel + 1) h fid (.fut gid) =
          (h, some (.invalidState "Future is not PENDING"))) ∧
    (∀ gid g, gid ≠ fid → getFut h gid = some g → g.state = .pending →
        (set_result (fuel + 1) h fid (.fut gid)).2 = Option.none ∧
        getFut (set_result (fuel + 1) h fid (.fut gid)).1 fid = some f) := by
  refine ⟨fun e => ?_, fun v hv => ?_, fun gid g hne hg hgdone => ?_,
    fun gid g hne hg hgpend => ?_⟩
  · simp [set_exception, interp, hf, hdone]
  · rw [set_result_notFut fuel h fid v hv]
    simp [hf, hdone]
  · simp [set_result, interp, hne, add_done_callback, hg, hgdone]
  · constructor
    · simp [set_result, interp, hne, add_done_callback, hg, hgpend]
    · simp only [set_result, interp, hne, add_done_callback, hg, hgpend]
      simp [getFut, setFut, hne, add_done_callback, hg, hgpend,
        List.getElem?_set_ne hne, ← hf, getFut]

/-- Witness for C7 (amended), at `heapDonePending` (future 0 done with
result 1, future 1 pending). -/
theorem C7_single_transition_amended_witness :
    set_exception 20 heapDonePending 0 (.userErr "x") =
      (heapDonePending, some (.invalidState "Future is not PENDING")) ∧
    set_result 20 heapDonePending 0 (.int 3) =
      (heapDonePending, some (.invalidState "Future is not PENDING")) ∧
    (set_result 20 heapDonePending 0 (.fut 1)).2 = Option.none := by
  have h := C7_single_transition_amended 19 heapDonePending 0
    { state := .finished, result := some (.int 1) } rfl rfl
  exact ⟨h.1 (.userErr "x"), h.2.1 (.int 3) rfl,
    (h.2.2.2 1 Future.pendingF (by decide) rfl rfl).1⟩

/-- Claim C10: settling a pending future with an already-done future raises
`InvalidState` (flattening registers a completion callback on the inner
future, and `add_done_callback` asserts that it is pending), leaving the
heap unchanged — the done future's value is never adopted; and a
`then`-transform returning an already-settled future makes the chained
future fail with that `InvalidState` error instead of settling (here:
`f = 0` pending, `g = 1` done with result 7, the transform returns `g`,
and the future returned by `then` ends up failed with `InvalidState`). -/
theorem C10_set_result_with_done_future (fuel : Nat) (h : Heap) (f g : FId)
    (gf : Future) (hne : g ≠ f) (hg : getFut h g = some gf)
    (hdone : gf.state = .finished) :
    set_result (fuel + 1) h f (.fut g) =
      (h, some (.invalidState "Future is not PENDING")) ∧
    ((thenOp heapPendingDone 0 (fun _ => .ok (.fut 1))).1.2 = Option.none ∧
     (set_result 20 (thenOp heapPendingDone 0 (fun _ => .ok (.fut 1))).1.1
        0 (.int 1)).2 = Option.none ∧
     futResult
       (set_result 20 (thenOp heapPendingDone 0 (fun _ => .ok (.fut 1))).1.1
          0 (.int 1)).1
       (thenOp heapPendingDone 0 (fun _ => .ok (.fut 1))).2 =
       .error (.invalidState "Future is not PENDING")) := by
  constructor
  · simp [set_result, interp, hne, add_done_callback, hg, hdone]
  · refine ⟨rfl, ?_, ?_⟩ <;> decide

/-- Witness for C10 at `heapPendingDone` (future 0 pending, future 1 done
with result 7). -/
theorem C10_set_result_with_done_future_witness :
    set_result 20 heapPendingDone 0 (.fut 1) =
      (heapPendingDone, some (.invalidState "Future is not PENDING")) :=
  (C10_set_result_with_done_future 19 heapPendingDone 0 1
    { state := .finished, result := some (.int 7) } (by decide) rfl rfl).1

/-- Claim C5 counterexample: when `f` fails, a future chained with
`f.then(g)` does *not* fail with `f`'s error: `_finish` passes
`self._result` (still `None`) to the registered callbacks, so
`call_and_resolve` applies the transform to `None`; with
`g = lambda _: 7`, after `f.set_exception(boom)` the chained future is
*settled* with `7` while `f` itself is failed with `boom`. -/
theorem C5_then_error_propagation_counterexample :
    (thenOp heapOne 0 (fun _ => .ok (.int 7))).1.2 = Option.none ∧
    (set_exception 20 (thenOp heapOne 0 (fun _ => .ok (.int 7))).1.1 0
       (.userErr "boom")).2 = Option.none ∧
    futResult (set_exception 20 (thenOp heapOne 0 (fun _ => .ok (.int 7))).1.1 0
       (.userErr "boom")).1 0 = .error (.userErr "boom") ∧
    futResult (set_exception 20 (thenOp heapOne 0 (fun _ => .ok (.int 7))).1.1 0
       (.userErr "boom")).1 1 = .ok (.int 7) := by
  decide

/-- Claim C5 amended: `f.then(g)` settles with `g(v)` once `f` settles with
`v`, and `f.then(g).then(h)` agrees with `f.then(lambda v: h(g(v)))` on
success paths; an exception raised inside a transform fails that
downstream future with the raised error.  However, when `f` itself fails,
the error is not propagated to the chained future: the transform is
invoked with `None` (the unset `_result`), and the chained future settles
or fails according to `g(None)`. -/
theorem C5_then_composition_amended
    (g h gE gN : PyVal → Except PyErr PyVal) (v w u : PyVal) (e : PyErr)
    (hv : v.isFut = false) (hw : w.isFut = false) (hu : u.isFut = false)
    (hg : g v = .ok w) (hh : h w = .ok u)
    (hgE : gE v = .error e) (hgN : gN .none = .ok u) :
    ((set_result 30 (thenOp (thenOp heapOne 0 g).1.1 1 h).1.1 0 v).2 = Option.none ∧
     futResult (set_result 30 (thenOp (thenOp heapOne 0 g).1.1 1 h).1.1 0 v).1 1 = .ok w ∧
     futResult (set_result 30 (thenOp (thenOp heapOne 0 g).1.1 1 h).1.1 0 v).1 2 = .ok u) ∧
    ((set_result 30 (thenOp heapOne 0 (compose2 g h)).1.1 0 v).2 = Option.none ∧
     futResult (set_result 30 (thenOp heapOne 0 (compose2 g h)).1.1 0 v).1 1 = .ok u) ∧
    ((set_result 30 (thenOp heapOne 0 gE).1.1 0 v).2 = Option.none ∧
     futResult (set_result 30 (thenOp heapOne 0 gE).1.1 0 v).1 1 = .error e) ∧
    ((set_exception 30 (thenOp heapOne 0 gN).1.1 0 e).2 = Option.none ∧
     futResult (set_exception 30 (thenOp heapOne 0 gN).1.1 0 e).1 0 = .error e ∧
     futResult (set_exception 30 (thenOp heapOne 0 gN).1.1 0 e).1 1 = .ok u) := by
  have hcomp : compose2 g h v = .ok u := by
    unfold compose2
    rw [hg]
    exact hh
  refine ⟨?_, ?_, ?_, ?_⟩
  · have eB : (thenOp (thenOp heapOne 0 g).1.1 1 h).1.1 = { futures := [⟨.pending, Option.none, Option.none, [.callAndResolve 1 g]⟩,
          ⟨.pending, Option.none, Option.none, [.callAndResolve 2 h]⟩,
          ⟨.pending, Option.none, Option.none, []⟩] } := rfl
    rw [eB, show (30 : Nat) = 26 + 4 from rfl]
    rw [set_result_single_cAR 26 { futures := [⟨.pending, Option.none, Option.none, [.callAndResolve 1 g]⟩,
          ⟨.pending, Option.none, Option.none, [.callAndResolve 2 h]⟩,
          ⟨.pending, Option.none, Option.none, []⟩] } 0 1 g v ⟨.pending, Option.none, Option.none, [.callAndResolve 1 g]⟩ rfl rfl rfl hv]
    rw [hg]
    dsimp only
    rw [show (26 : Nat) = 22 + 4 from rfl]
    rw [set_result_single_cAR 22 (setFut { futures := [⟨.pending, Option.none, Option.none, [.callAndResolve 1 g]⟩,
          ⟨.pending, Option.none, Option.none, [.callAndResolve 2 h]⟩,
          ⟨.pending, Option.none, Option.none, []⟩] } 0 ⟨.finished, some v, Option.none, []⟩) 1 2 h w ⟨.pending, Option.none, Option.none, [.callAndResolve 2 h]⟩ rfl rfl rfl hw]
    rw [hh]
    dsimp only
    rw [show (22 : Nat) = 20 + 2 from rfl]
    rw [set_result_no_cb 20 (setFut (setFut { futures := [⟨.pending, Option.none, Option.none, [.callAndResolve 1 g]⟩,
          ⟨.pending, Option.none, Option.none, [.callAndResolve 2 h]⟩,
          ⟨.pending, Option.none, Option.none, []⟩] } 0 ⟨.finished, some v, Option.none, []⟩) 1 ⟨.finished, some w, Option.none, []⟩) 2 u ⟨.pending, Option.none, Option.none, []⟩ rfl rfl rfl hu]
    simp [futResult, getFut, setFut]
  · have eB : (thenOp heapOne 0 (compose2 g h)).1.1 = { futures := [⟨.pending, Option.none, Option.none, [.callAndResolve 1 (compose2 g h)]⟩,
          ⟨.pending, Option.none, Option.none, []⟩] } := rfl
    rw [eB, show (30 : Nat) = 26 + 4 from rfl]
    rw [set_result_single_cAR 26 { futures := [⟨.pending, Option.none, Option.none, [.callAndResolve 1 (compose2 g h)]⟩,
          ⟨.pending, Option.none, Option.none, []⟩] } 0 1 (compose2 g h) v
          ⟨.pending, Option.none, Option.none, [.callAndResolve 1 (compose2 g h)]⟩
          rfl rfl rfl hv]
    rw [hcomp]
    dsimp only
    rw [show (26 : Nat) = 24 + 2 from rfl]
    rw [set_result_no_cb 24 (setFut { futures := [⟨.pending, Option.none, Option.none, [.callAndResolve 1 (compose2 g h)]⟩,
          ⟨.pending, Option.none, Option.none, []⟩] } 0 ⟨.finished, some v, Option.none, []⟩) 1 u ⟨.pending, Option.none, Option.none, []⟩ rfl rfl rfl hu]
    simp [futResult, getFut, setFut]
  · have eB : (thenOp heapOne 0 gE).1.1 = { futures := [⟨.pending, Option.none, Option.none, [.callAndResolve 1 gE]⟩,
          ⟨.pending, Option.none, Option.none, []⟩] } := rfl
    rw [eB, show (30 : Nat) = 26 + 4 from rfl]
    rw [set_result_single_cAR 26 { futures := [⟨.pending, Option.none, Option.none, [.callAndResolve 1 gE]⟩,
          ⟨.pending, Option.none, Option.none, []⟩] } 0 1 gE v
          ⟨.pending, Option.none, Option.none, [.callAndResolve 1 gE]⟩ rfl rfl rfl hv]
    rw [hgE]
    dsimp only
    rw [show (26 : Nat) = 24 + 2 from rfl]
    rw [set_exception_no_cb 24 (setFut { futures := [⟨.pending, Option.none, Option.none, [.callAndResolve 1 gE]⟩,
          ⟨.pending, Option.none, Option.none, []⟩] } 0 ⟨.finished, some v, Option.none, []⟩) 1 e ⟨.pending, Option.none, Option.none, []⟩ rfl rfl rfl]
    simp [futResult, getFut, setFut]
  · have eB : (thenOp heapOne 0 gN).1.1 = { futures := [⟨.pending, Option.none, Option.none, [.callAndResolve 1 gN]⟩,
          ⟨.pending, Option.none, Option.none, []⟩] } := rfl
    rw [eB, show (30 : Nat) = 26 + 4 from rfl]
    rw [set_exception_single_cAR 26 { futures := [⟨.pending, Option.none, Option.none, [.callAndResolve 1 gN]⟩,
          ⟨.pending, Option.none, Option.none, []⟩] } 0 1 gN e
          ⟨.pending, Option.none, Option.none, [.callAndResolve 1 gN]⟩ rfl rfl rfl]
    simp only [Option.getD_none]
    rw [hgN]
    dsimp only
    rw [show (26 : Nat) = 24 + 2 from rfl]
    rw [set_result_no_cb 24 (setFut { futures := [⟨.pending, Option.none, Option.none, [.callAndResolve 1 gN]⟩,
          ⟨.pending, Option.none, Option.none, []⟩] } 0 ⟨.finished, Option.none, some e, []⟩) 1 u ⟨.pending, Option.none, Option.none, []⟩ rfl rfl rfl hu]
    simp [futResult, getFut, setFut]

/-- Witness for C5 (amended), with concrete transforms and values. -/
theorem C5_then_composition_amended_witness :
    futResult (set_result 30
      (thenOp (thenOp heapOne 0 (fun _ => Except.ok (PyVal.int 1))).1.1 1
         (fun _ => Except.ok (PyVal.int 2))).1.1 0 (.int 0)).1 2 =
      .ok (.int 2) ∧
    futResult (set_exception 30
      (thenOp heapOne 0 (fun _ => Except.ok (PyVal.int 2))).1.1 0
      (.userErr "boom")).1 1 = .ok (.int 2) := by
  have h := C5_then_composition_amended
    (fun _ => Except.ok (PyVal.int 1)) (fun _ => Except.ok (PyVal.int 2))
    (fun _ => Except.error (PyErr.userErr "boom"))
    (fun _ => Except.ok (PyVal.int 2))
    (.int 0) (.int 1) (.int 2) (.userErr "boom")
    rfl rfl rfl rfl rfl rfl rfl
  exact ⟨h.1.2.2, h.2.2.2.2.2⟩

/-! ## Claims about the batch loader (`sync_dataloader.py`) -/

/-- Claim C8 counterexample: when the external `batch_load_fn` itself raises,
nothing is caught — `dispatch_queue` only wraps the *settling* loop in
`try`/`except` — so the queued key `"k"` is *not* evicted from the cache
and its future is *not* set to the error: the exception propagates with
the cache intact and the future still pending. -/
theorem C8_fetch_raise_counterexample :
    (dispatch_queue 30 (fun _ => .raises (.userErr "boom")) worldOneQueued).2 =
      some (.userErr "boom") ∧
    (dispatch_queue 30 (fun _ => .raises (.userErr "boom"))
       worldOneQueued).1.loader.cache = [("k", 0)] ∧
    doneF (dispatch_queue 30 (fun _ => .raises (.userErr "boom"))
       worldOneQueued).1.heap 0 = false := by
  decide

/-- Claim C8 amended: if the external fetch call itself raises, the
exception propagates out of dispatch uncaught — the queue has already been
emptied, but the cache and every queued future are left untouched
(cached, unsettled).  It is an exception raised while *settling* the
queued futures that triggers the eviction path: then every queued key is
removed from the cache and every still-unsettled future is set to that
error (here: future 0 was already done, settling it raises
`InvalidStateError`, both keys are evicted and pending future 1 is failed
with that error, and the error is swallowed by the `except` handler). -/
theorem C8_fetch_raise_amended (fuel : Nat) (w : World)
    (bf : List Key → BatchOut) (e : PyErr)
    (hne : w.loader.queue ≠ [])
    (hbf : bf (w.loader.queue.map (·.1)) = .raises e) :
    (dispatch_queue fuel bf w =
      ({ w with loader := { w.loader with queue := [] },
                fetchCalls := w.fetchCalls ++ [w.loader.queue.map (·.1)] },
       some e)) ∧
    ((dispatch_queue 30 (fun ks => .values (ks.map (fun _ => .int 2)))
        worldSettledQueued).2 = Option.none ∧
     (dispatch_queue 30 (fun ks => .values (ks.map (fun _ => .int 2)))
        worldSettledQueued).1.loader.cache = [] ∧
     futResult (dispatch_queue 30 (fun ks => .values (ks.map (fun _ => .int 2)))
        worldSettledQueued).1.heap 1 =
       .error (.invalidState "Future is not PENDING")) := by
  constructor
  · have hq : w.loader.queue.isEmpty = false := by
      cases hq2 : w.loader.queue with
      | nil => exact absurd hq2 hne
      | cons a t => rfl
    simp [dispatch_queue, hq, hbf]
  · refine ⟨?_, ?_, ?_⟩ <;> decide

/-- Witness for C8 (amended) at `worldOneQueued` with a raising fetch. -/
theorem C8_fetch_raise_amended_witness :
    dispatch_queue 30 (fun _ => .raises (.userErr "boom")) worldOneQueued =
      ({ worldOneQueued with
           loader := { worldOneQueued.loader with queue := [] },
           fetchCalls := [["k"]] },
       some (.userErr "boom")) :=
  (C8_fetch_raise_amended 30 worldOneQueued
    (fun _ => .raises (.userErr "boom")) (.userErr "boom")
    (by decide) rfl).1

/-- Claim C9: a `batch_load_fn` returning a non-collection, or a collection
whose length differs from the number of queued keys, makes dispatch raise
`ValueError` ("The batch loader does not return an expected result"); the
error is not caught anywhere in the drain of the batch-callbacks scope —
`run_all_callbacks` propagates it to the caller of the evaluation — and
the queued futures are left unsettled (the whole heap is untouched; the
queue has been emptied and the fetch recorded). -/
theorem C9_batch_contract_error (fuel : Nat) (w : World)
    (bf bf2 : List Key → BatchOut) (vs : List PyVal) (rest : List Unit)
    (hne : w.loader.queue ≠ [])
    (hscope : w.scope = some (() :: rest))
    (hbf : bf (w.loader.queue.map (·.1)) = .values vs)
    (hlen : (w.loader.queue.map (·.1)).length ≠ vs.length)
    (hbf2 : bf2 (w.loader.queue.map (·.1)) = .notCollection) :
    (run_all_callbacks (fuel + 2) bf w =
      ({ w with scope := some rest,
                loader := { w.loader with queue := [] },
                fetchCalls := w.fetchCalls ++ [w.loader.queue.map (·.1)] },
       some (.valueErr "The batch loader does not return an expected result"))) ∧
    (run_all_callbacks (fuel + 2) bf2 w =
      ({ w with scope := some rest,
                loader := { w.loader with queue := [] },
                fetchCalls := w.fetchCalls ++ [w.loader.queue.map (·.1)] },
       some (.valueErr "The batch loader does not return an expected result"))) := by
  have hq : w.loader.queue.isEmpty = false := by
    cases hq2 : w.loader.queue with
    | nil => exact absurd hq2 hne
    | cons a t => rfl
  have hlen' : w.loader.queue.length ≠ vs.length := by
    simpa using hlen
  constructor
  · simp [run_all_callbacks, hscope, dispatch_queue, hq, hbf, hlen']
  · simp [run_all_callbacks, hscope, dispatch_queue, hq, hbf2]

/-- Witness for C9 at `worldOneQueuedScoped` with a fetch returning an
empty list for the one queued key. -/
theorem C9_batch_contract_error_witness :
    run_all_callbacks 22 (fun _ => .values []) worldOneQueuedScoped =
      ({ worldOneQueuedScoped with
           scope := some [],
           loader := { worldOneQueuedScoped.loader with queue := [] },
           fetchCalls := [["k"]] },
       some (.valueErr "The batch loader does not return an expected result")) :=
  (C9_batch_contract_error 20 worldOneQueuedScoped
    (fun _ => .values []) (fun _ => .notCollection) [] []
    (by decide) rfl rfl (by decide) rfl).1

/-! ## Claims about the field tree evaluator (`execution_context.py`) -/

/-- Claim C3: for an object level with fields `[x, y, z]` in declared order,
where `x` and `z` resolve to immediate values and `y` to a still-pending
future, the synchronous pass leaves the results dict with key order
`x, y, z` and the `PENDING_FUTURE` placeholder in `y`'s slot; when `y`
later settles, `process_result` overwrites the placeholder in place —
Python dict update preserves insertion position — so the final dict is
`x, y, z` in declared order (not completion order), and with the pending
counter at zero the object's future is settled with exactly that dict. -/
theorem C3_field_order_preserved (vx vy vz : PyVal) (fy : FId)
    (hx : vx ≠ .undefined) (hy : vy ≠ .undefined) (hz : vz ≠ .undefined) :
    (executeFieldsPass
        [("x", .immediate vx), ("y", .pendingFuture fy), ("z", .immediate vz)]).results
      = [("x", .val vx), ("y", .pendingMarker), ("z", .val vz)] ∧
    (executeFieldsPass
        [("x", .immediate vx), ("y", .pendingFuture fy), ("z", .immediate vz)]).unresolved
      = 1 ∧
    (executeFieldsPass
        [("x", .immediate vx), ("y", .pendingFuture fy), ("z", .immediate vz)]).pendingFields
      = [("y", fy)] ∧
    (processResult
        (executeFieldsPass
          [("x", .immediate vx), ("y", .pendingFuture fy), ("z", .immediate vz)])
        "y" vy).1.results
      = [("x", .val vx), ("y", .val vy), ("z", .val vz)] ∧
    (processResult
        (executeFieldsPass
          [("x", .immediate vx), ("y", .pendingFuture fy), ("z", .immediate vz)])
        "y" vy).2
      = some [("x", .val vx), ("y", .val vy), ("z", .val vz)] := by
  refine ⟨?_, ?_, ?_, ?_, ?_⟩ <;>
    simp [executeFieldsPass, processResult, dictSet, dictDel, hx, hy, hz]

/-- Witness for C3 with concrete values. -/
theorem C3_field_order_preserved_witness :
    (processResult
        (executeFieldsPass
          [("x", .immediate (.int 1)), ("y", .pendingFuture 0),
           ("z", .immediate (.int 3))])
        "y" (.int 2)).1.results
      = [("x", .val (.int 1)), ("y", .val (.int 2)), ("z", .val (.int 3))] :=
  (C3_field_order_preserved (.int 1) (.int 2) (.int 3) 0
    (by decide) (by decide) (by decide)).2.2.2.1

/-- Claim C1, which the code contradicts: `DeferredExecutionContext
.execute_operation` as written never activates a `DataloaderBatchCallbacks`
scope — the `_dataloader_batch_callbacks` context variable stays `None` —
and `SyncDataLoader.load` never assigns `deferred_callback` on its futures,
so the `_deferred_callbacks` drain in `execute_operation` has nothing to
run.  For a top-level operation with two fields each loading a distinct
key: the first `load` raises `RuntimeError("DeferredExecutionContext not
properly configured")` (caught at the field boundary and recorded as a
field error), the second `load` enqueues silently (the queue is already
nonempty) and returns a pending future that nothing will ever settle, so
`execute_operation` raises `RuntimeError("GraphQL deferred execution
failed to complete.")` — and the external batch-fetch function is invoked
zero times, not once. -/
theorem C1_no_batch_scope_fetch_never_runs (k1 k2 : Key) :
    (executeOperationTwoLoads k1 k2).1.fetchCalls = [] ∧
    (executeOperationTwoLoads k1 k2).2.1 =
      [.runtimeErr "DeferredExecutionContext not properly configured"] ∧
    (executeOperationTwoLoads k1 k2).2.2 =
      .error (.runtimeErr "GraphQL deferred execution failed to complete.") :=
  ⟨rfl, rfl, rfl⟩

/-! ## Batch deduplication (`SyncDataLoader.load` / `dispatch_queue`) -/

/-- A cache lookup misses exactly when the key is not among the cached
keys. -/
lemma cacheLookup_eq_none_iff (c : List (Key × FId)) (k : Key) :
    cacheLookup c k = Option.none ↔ k ∉ keysOf c := by
  simp only [cacheLookup, Option.map_eq_none', List.find?_eq_none, keysOf]
  constructor
  · intro h hk
    rcases List.mem_map.mp hk with ⟨p, hp, hpk⟩
    exact absurd (by simpa using hpk) (by simpa using h p hp)
  · intro h p hp
    by_contra hc
    exact h (List.mem_map.mpr ⟨p, hp, by simpa using hc⟩)

/-- After `self._cache[key] = future`, looking the key up finds exactly
that future. -/
lemma cacheLookup_append_self (c : List (Key × FId)) (k : Key) (fid : FId)
    (hc : cacheLookup c k = Option.none) :
    cacheLookup (c ++ [(k, fid)]) k = some fid := by
  have hfind : c.find? (fun p => p.1 = k) = Option.none := by
    simpa [cacheLookup] using hc
  simp [cacheLookup, List.find?_append, hfind, List.find?_cons]

/-- `load` on a cached key returns the cached future unchanged: no new
future, no queue entry, no scope registration. -/
lemma load_cached (w : World) (k : Key) (fid : FId)
    (hc : cacheLookup w.loader.cache k = some fid) :
    load w k = (w, Except.ok fid) := by
  simp [load, hc]

/-- Any successful `load` leaves the returned future cached under its
key. -/
lemma load_ok_mem (w w' : World) (k : Key) (fid : FId)
    (h : load w k = (w', Except.ok fid)) :
    cacheLookup w'.loader.cache k = some fid := by
  rcases hc : cacheLookup w.loader.cache k with _ | f0
  · rcases hqe : w.loader.queue.isEmpty with _ | _
    · simp [load, hc, hqe] at h
      rcases h with ⟨hw, hfid⟩
      subst hw
      subst hfid
      exact cacheLookup_append_self _ _ _ hc
    · rcases hsc : w.scope with _ | cbs
      · simp [load, hc, hqe, hsc] at h
      · simp [load, hc, hqe, hsc] at h
        rcases h with ⟨hw, hfid⟩
        subst hw
        subst hfid
        exact cacheLookup_append_self _ _ _ hc
  · rw [load_cached w k f0 hc] at h
    injection h with h1 h2
    injection h2 with h3
    subst h1
    subst h3
    exact hc

/-- One `load` under an active scope: the cache and queue key lists each
gain the key exactly when it was not cached, the scope stays active, and
the batch-fetch function is not invoked. -/
lemma load_spec (w : World) (k : Key) (cbs : List Unit)
    (hscope : w.scope = some cbs) :
    keysOf (load w k).1.loader.cache
      = keysOf w.loader.cache
          ++ (if k ∈ keysOf w.loader.cache then [] else [k]) ∧
    (load w k).1.loader.queue.map Prod.fst
      = w.loader.queue.map Prod.fst
          ++ (if k ∈ keysOf w.loader.cache then [] else [k]) ∧
    (∃ cbs', (load w k).1.scope = some cbs') ∧
    (load w k).1.fetchCalls = w.fetchCalls := by
  rcases hc : cacheLookup w.loader.cache k with _ | f0
  · have hmem : k ∉ keysOf w.loader.cache := (cacheLookup_eq_none_iff _ _).mp hc
    simp only [keysOf] at hmem
    rcases hqe : w.loader.queue.isEmpty with _ | _
    · simp [load, hc, hqe, hscope, keysOf, hmem]
    · simp [load, hc, hqe, hscope, keysOf, hmem]
  · have hmem : k ∈ keysOf w.loader.cache := by
      by_contra hm
      rw [(cacheLookup_eq_none_iff _ _).mpr hm] at hc
      exact Option.noConfusion hc
    simp only [keysOf] at hmem
    simp [load_cached w k f0 hc, keysOf, hmem, hscope]

/-- Every key that reaches the queue was not in the cache when the load
sequence started. -/
lemma newKeys_mem_not_cached :
    ∀ (ks : List Key) (c : List Key) (x : Key), x ∈ newKeys c ks → x ∉ c := by
  intro ks
  induction ks with
  | nil => intro c x hx; simp [newKeys] at hx
  | cons k t ih =>
    intro c x hx
    by_cases hk : k ∈ c
    · simp [newKeys, hk] at hx
      exact ih c x hx
    · simp [newKeys, hk] at hx
      rcases hx with rfl | hx
      · exact hk
      · intro hxc
        exact ih (c ++ [k]) x hx (List.mem_append_left _ hxc)

/-- A sequence of `load` calls under an active scope: cache and queue
keys grow by exactly the deduplicated, first-seen-order uncached keys,
and no fetch happens. -/
lemma loadMany_spec :
    ∀ (ks : List Key) (w : World) (cbs : List Unit), w.scope = some cbs →
    keysOf (loadMany w ks).loader.cache
      = keysOf w.loader.cache ++ newKeys (keysOf w.loader.cache) ks ∧
    (loadMany w ks).loader.queue.map Prod.fst
      = w.loader.queue.map Prod.fst ++ newKeys (keysOf w.loader.cache) ks ∧
    (∃ cbs', (loadMany w ks).scope = some cbs') ∧
    (loadMany w ks).fetchCalls = w.fetchCalls := by
  intro ks
  induction ks with
  | nil => intro w cbs hscope; simp [loadMany, newKeys]; exact ⟨cbs, hscope⟩
  | cons k t ih =>
    intro w cbs hscope
    have hstep := load_spec w k cbs hscope
    have hLM : loadMany w (k :: t) = loadMany (load w k).1 t := rfl
    obtain ⟨hcache, hqueue, ⟨cbs', hscope'⟩, hfetch⟩ := hstep
    obtain ⟨ihc, ihq, ihs, ihf⟩ := ih (load w k).1 cbs' hscope'
    by_cases hk : k ∈ keysOf w.loader.cache
    · rw [hLM]
      refine ⟨?_, ?_, ihs, by rw [ihf, hfetch]⟩
      · rw [ihc, hcache]
        simp [hk, newKeys]
      · rw [ihq, hcache, hqueue]
        simp [hk, newKeys]
    · rw [hLM]
      refine ⟨?_, ?_, ihs, by rw [ihf, hfetch]⟩
      · rw [ihc, hcache]
        simp [hk, newKeys, List.append_assoc]
      · rw [ihq, hcache, hqueue]
        simp [hk, newKeys, List.append_assoc]

/-- The `except` branch of dispatch touches only the cache and the heap:
fetch record and queue are unchanged. -/
lemma exceptLoop_fetchCalls_queue (fuel : Nat) :
    ∀ (entries : List (Key × FId)) (w : World) (err : PyErr),
      (exceptLoop fuel w entries err).1.fetchCalls = w.fetchCalls ∧
      (exceptLoop fuel w entries err).1.loader.queue = w.loader.queue := by
  intro entries
  induction entries with
  | nil => intro w err; simp [exceptLoop]
  | cons p t ih =>
    intro w err
    rcases p with ⟨k, fid⟩
    simp only [exceptLoop]
    by_cases hd : doneF w.heap fid = true
    · simp only [hd, if_true]
      have := ih { w with loader := clearKey w.loader k } err
      simpa [clearKey] using this
    · simp only [hd, if_false, Bool.false_eq_true]
      rcases hE : set_exception fuel w.heap fid err with ⟨h', e'⟩
      cases e' with
      | none =>
        have := ih { heap := h', loader := clearKey w.loader k,
                     scope := w.scope, fetchCalls := w.fetchCalls } err
        simpa [clearKey] using this
      | some e => simp [clearKey]

/-- `dispatch_queue` invokes the batch-fetch function exactly once with
the queued keys when the queue is nonempty (never when empty), and always
leaves the queue empty. -/
lemma dispatch_queue_fetchCalls (fuel : Nat) (bf : List Key → BatchOut)
    (w : World) :
    (dispatch_queue fuel bf w).1.fetchCalls =
      (if w.loader.queue.isEmpty then w.fetchCalls
       else w.fetchCalls ++ [w.loader.queue.map (·.1)]) ∧
    (dispatch_queue fuel bf w).1.loader.queue =
      (if w.loader.queue.isEmpty then w.loader.queue else []) := by
  rcases hqe : w.loader.queue.isEmpty with _ | _
  · simp only [dispatch_queue, hqe, Bool.false_eq_true, if_false]
    rcases hbf : bf (w.loader.queue.map (·.1)) with e | _ | vs
    · simp [hbf]
    · simp [hbf]
    · simp only [hbf]
      by_cases hlen : w.loader.queue.length = vs.length
      · simp only [List.length_map, hlen, ne_eq, not_true_eq_false, if_false,
          reduceIte]
        rcases hS : settleLoop fuel w.heap (w.loader.queue.zip vs) with ⟨h', e'⟩
        cases e' with
        | none => simp [hS]
        | some err =>
          have hEx := exceptLoop_fetchCalls_queue fuel w.loader.queue
            { heap := h',
              loader := { cache := w.loader.cache, queue := [] },
              scope := w.scope,
              fetchCalls := w.fetchCalls ++ [w.loader.queue.map (fun p => p.1)] } err
          simpa using hEx
      · simp only [List.length_map, ne_eq, hlen, not_false_eq_true, if_true,
          reduceIte]
        simp
  · simp [dispatch_queue, hqe]

/-- Claim C2: within one undispatched cycle, a key loaded twice returns the
identical Deferred Value without a new queue entry (a cached `load` is the
identity on the world); after any sequence of loads starting from an empty
queue, the queue holds exactly the deduplicated, first-seen-order list of
the requested keys that were not already cached; the loads themselves
never invoke the external batch-fetch function; dispatch then invokes it
exactly once with that key list (not at all if every key was cached), and
a second dispatch performs no further fetch. -/
theorem C2_load_dedup_single_fetch (w0 : World) (ks : List Key)
    (bf : List Key → BatchOut) (fuel : Nat) (cbs : List Unit)
    (hq : w0.loader.queue = []) (hscope : w0.scope = some cbs) :
    (∀ (w w' : World) (k : Key) (fid : FId),
        load w k = (w', Except.ok fid) → load w' k = (w', Except.ok fid)) ∧
    ((loadMany w0 ks).loader.queue.map Prod.fst
       = newKeys (keysOf w0.loader.cache) ks) ∧
    (∀ x ∈ newKeys (keysOf w0.loader.cache) ks, x ∉ keysOf w0.loader.cache) ∧
    ((loadMany w0 ks).fetchCalls = w0.fetchCalls) ∧
    (newKeys (keysOf w0.loader.cache) ks ≠ [] →
       (dispatch_queue fuel bf (loadMany w0 ks)).1.fetchCalls
         = w0.fetchCalls ++ [newKeys (keysOf w0.loader.cache) ks]) ∧
    (newKeys (keysOf w0.loader.cache) ks = [] →
       (dispatch_queue fuel bf (loadMany w0 ks)).1.fetchCalls = w0.fetchCalls) ∧
    ((dispatch_queue fuel bf
        (dispatch_queue fuel bf (loadMany w0 ks)).1).1.fetchCalls
       = (dispatch_queue fuel bf (loadMany w0 ks)).1.fetchCalls) := by
  obtain ⟨hcache, hqmap, hs, hf⟩ := loadMany_spec ks w0 cbs hscope
  rw [hq] at hqmap
  simp only [List.map_nil, List.nil_append] at hqmap
  have hqueue_eq : (loadMany w0 ks).loader.queue.map Prod.fst
      = newKeys (keysOf w0.loader.cache) ks := hqmap
  refine ⟨?_, hqueue_eq, ?_, hf, ?_, ?_, ?_⟩
  · intro w w' k fid h
    exact load_cached w' k fid (load_ok_mem w w' k fid h)
  · intro x hx
    exact newKeys_mem_not_cached ks (keysOf w0.loader.cache) x hx
  · intro hne
    have hqne : (loadMany w0 ks).loader.queue ≠ [] := by
      intro h0
      rw [h0] at hqueue_eq
      exact hne (by simpa using hqueue_eq.symm)
    have hie : (loadMany w0 ks).loader.queue.isEmpty = false := by
      cases hql : (loadMany w0 ks).loader.queue with
      | nil => exact absurd hql hqne
      | cons a t => rfl
    have hd := (dispatch_queue_fetchCalls fuel bf (loadMany w0 ks)).1
    rw [hie] at hd
    simp only [Bool.false_eq_true, if_false] at hd
    rw [hd, hf]
    have : (loadMany w0 ks).loader.queue.map (·.1)
        = newKeys (keysOf w0.loader.cache) ks := hqueue_eq
    rw [this]
  · intro hnil
    have hqnil : (loadMany w0 ks).loader.queue = [] := by
      have := hqueue_eq
      rw [hnil] at this
      exact List.map_eq_nil_iff.mp this
    have hd := (dispatch_queue_fetchCalls fuel bf (loadMany w0 ks)).1
    rw [hqnil] at hd
    simpa [hf] using hd
  · have hpostq : (dispatch_queue fuel bf (loadMany w0 ks)).1.loader.queue = [] := by
      have hdq := (dispatch_queue_fetchCalls fuel bf (loadMany w0 ks)).2
      rcases hie2 : (loadMany w0 ks).loader.queue.isEmpty with _ | _
      · simpa [hie2] using hdq
      · have hnil : (loadMany w0 ks).loader.queue = [] := by
          cases hql : (loadMany w0 ks).loader.queue with
          | nil => rfl
          | cons a t => rw [hql] at hie2; exact absurd hie2 (by simp)
        rw [hnil] at hdq
        simpa [hie2] using hdq
    have hd2 := (dispatch_queue_fetchCalls fuel bf
      (dispatch_queue fuel bf (loadMany w0 ks)).1).1
    rw [hpostq] at hd2
    simpa using hd2

/-- Witness for C2: keys `["1", "2", "1"]` loaded into a fresh loader under
an active scope queue exactly `["1", "2"]`, and dispatch fetches once with
that list. -/
theorem C2_load_dedup_single_fetch_witness :
    (loadMany { scope := some [] } ["1", "2", "1"]).loader.queue.map Prod.fst
      = ["1", "2"] ∧
    (dispatch_queue 30 (fun ks => .values (ks.map (fun _ => .int 1)))
       (loadMany { scope := some [] } ["1", "2", "1"])).1.fetchCalls
      = [["1", "2"]] := by
  have h := C2_load_dedup_single_fetch { scope := some [] } ["1", "2", "1"]
    (fun ks => .values (ks.map (fun _ => .int 1))) 30 [] rfl rfl
  refine ⟨?_, ?_⟩
  · rw [h.2.1]
    decide
  · rw [h.2.2.2.2.1 (by decide)]
    decide
